import Mathlib

set_option maxRecDepth 100000

/-!
Verification development for the writer-chat bot: per-session dialogue state
machine, tiered content-resolution chain and exclusion-aware random poem
picker, shallowly embedded from `handlers.py`, `database.py` and `ai.py`.

Strings are modelled as lists of Unicode code points (`Str := List Nat`),
matching Python 3 strings, which are sequences of code points.  Randomness
(`random.choice`) is modelled by an injected pick index taken modulo the
candidate-list length, quantified universally.  The generative fallback is
modelled by an injected function from the raw user message to a reply.
-/

/-- Python strings are sequences of code points; we model them as `List Nat`. -/
abbrev Str := List Nat

/-- Turn a Lean string literal into its code-point list. -/
def str (s : String) : Str := s.data.map Char.toNat

/-- Embedding of Python's `str.lower` restricted to the alphabets the bot
uses: ASCII letters, the Russian block U+0410..U+042F and Ё (U+0401). -/
def lowerN (n : Nat) : Nat :=
  if 0x41 ≤ n ∧ n ≤ 0x5A then n + 0x20
  else if 0x410 ≤ n ∧ n ≤ 0x42F then n + 0x20
  else if n = 0x401 then 0x451
  else n

def lowerL (s : Str) : Str := s.map lowerN

/-- Whitespace class used by Python's `str.strip()` / `str.split()`. -/
def isWs (n : Nat) : Bool :=
  n == 0x20 || n == 0x9 || n == 0xA || n == 0xB || n == 0xC || n == 0xD

/-- Python `s.strip()`. -/
def stripWs (s : Str) : Str :=
  ((s.dropWhile isWs).reverse.dropWhile isWs).reverse

/-- Python `s.strip(chars)`: drop characters of `cs` from both ends. -/
def stripOf (cs : Str) (s : Str) : Str :=
  ((s.dropWhile cs.contains).reverse.dropWhile cs.contains).reverse

/-- `pref p l`: `l` starts with `p` (Python `startswith`). -/
def pref : Str → Str → Bool
  | [], _ => true
  | _ :: _, [] => false
  | a :: as, b :: bs => a == b && pref as bs

/-- Python `needle in hay` substring containment. -/
def hasSub (needle : Str) : Str → Bool
  | [] => needle.isEmpty
  | c :: t => pref needle (c :: t) || hasSub needle t

/-- Index of the first occurrence of `needle` (Python `hay.find(needle)`,
meaningful when the needle occurs). -/
def subIdx (needle : Str) : Str → Nat
  | [] => 0
  | c :: t => if pref needle (c :: t) then 0 else subIdx needle t + 1

def splitWsAux : Str → Str → List Str
  | cur, [] => if cur.isEmpty then [] else [cur.reverse]
  | cur, c :: t =>
    if isWs c then
      if cur.isEmpty then splitWsAux [] t else cur.reverse :: splitWsAux [] t
    else splitWsAux (c :: cur) t

/-- Python `s.split()` with no arguments: whitespace runs, empties dropped. -/
def splitWs (s : Str) : List Str := splitWsAux [] s

/-- The separator characters of `WriterBotHandlers._tokenize` (handlers.py
line 292): comma, period, exclamation and question marks, semicolon, colon,
double quote, apostrophe, round/square/curly/angle brackets, guillemets,
em dash and hyphen. -/
def sepChars : Str :=
  [44, 46, 33, 63, 59, 58, 34, 39, 40, 41, 91, 93, 123, 125, 60, 62,
   171, 187, 8212, 45]

/-- The strip set of the name-capture step (handlers.py line 175): a space
followed by the same separator characters. -/
def nameStripChars : Str := 32 :: sepChars

/-- `WriterBotHandlers._tokenize`: replace separators by spaces, then split
on whitespace.  (Python collects the tokens into a set; we keep the list,
whose membership is the same test.) -/
def tokenize (s : Str) : List Str :=
  splitWs (s.map fun n => if sepChars.contains n then 0x20 else n)

/-- Non-empty intersection of two token collections (Python `set & set`). -/
def interAny (a b : List Str) : Bool := a.any b.contains

/-- Code-point lexicographic order, the order SQLite's `ORDER BY title`
uses on UTF-8 text. -/
def strLe : Str → Str → Bool
  | [], _ => true
  | _ :: _, [] => false
  | a :: as, b :: bs =>
    decide (a < b) || (a == b && strLe as bs)

def insertSorted (x : Str) : List Str → List Str
  | [] => [x]
  | y :: ys => if strLe x y then x :: y :: ys else y :: insertSorted x ys

def sortStr : List Str → List Str
  | [] => []
  | x :: xs => insertSorted x (sortStr xs)

/-- Python `", ".join(xs)` with separator `sep`. -/
def joinSep (sep : Str) : List Str → Str
  | [] => []
  | [x] => x
  | x :: y :: xs => x ++ sep ++ joinSep sep (y :: xs)

/-! ## Data model (database.py) -/

structure PoemEntry where
  title : Str
  text : Str
  keywords : List Str
deriving DecidableEq

structure FaqEntry where
  question : Str
  answer : Str
  keywords : List Str
deriving DecidableEq

structure CharacterEntry where
  name : Str
  description : Str
  keywords : List Str
deriving DecidableEq

/-- The author-scoped content rows the handlers read, in database row
order. -/
structure AuthorData where
  poems : List PoemEntry
  faq : List FaqEntry
  characters : List CharacterEntry
deriving DecidableEq

/-- The `{title, text}` dict returned by `Database.get_random_poem`. -/
structure RandPoem where
  title : Str
  text : Str
deriving DecidableEq

/-- `any(keyword in normalized for keyword in keywords)`. -/
def kwAnyMatch (keywords : List Str) (normalized : Str) : Bool :=
  keywords.any fun k => hasSub k normalized

def nl2 : Str := [10, 10]

/-- `Database.find_poem_text`. -/
def find_poem_text (db : AuthorData) (user_text : Str) : Option Str :=
  let normalized := lowerL user_text
  (db.poems.find? fun p => kwAnyMatch p.keywords normalized).map
    fun p => p.title ++ nl2 ++ p.text

/-- `Database.find_character_insight`. -/
def find_character_insight (db : AuthorData) (user_text : Str) : Option Str :=
  let normalized := lowerL user_text
  (db.characters.find? fun c => kwAnyMatch c.keywords normalized).map
    fun c => c.name ++ str ": " ++ c.description

/-- `Database.find_faq_answer`. -/
def find_faq_answer (db : AuthorData) (user_text : Str) : Option Str :=
  let normalized := lowerL user_text
  (db.faq.find? fun f => kwAnyMatch f.keywords normalized).map
    fun f => f.answer

/-- `Database.get_poem_titles` (`SELECT title ... ORDER BY title`). -/
def get_poem_titles (db : AuthorData) : List Str :=
  sortStr (db.poems.map (·.title))

/-- The filter condition of `Database.get_random_poem`:
`not exclude_titles or row["title"] not in exclude_titles`. -/
def notExcluded (ex : Option (List Str)) (t : Str) : Bool :=
  match ex with
  | none => true
  | some e => e.isEmpty || !(e.contains t)

def candidatesOf (db : AuthorData) (ex : Option (List Str)) : List RandPoem :=
  (db.poems.filter fun p => notExcluded ex p.title).map
    fun p => ⟨p.title, p.text⟩

/-- `Database.get_random_poem`; `random.choice` is modelled by the injected
`pick` index taken modulo the number of candidates. -/
def get_random_poem (db : AuthorData) (pick : Nat)
    (ex : Option (List Str)) : Option RandPoem :=
  let candidates := candidatesOf db ex
  if candidates.isEmpty then none
  else candidates[pick % candidates.length]?

/-! ## Session state and replies (handlers.py) -/

/-- The dialog keys of `context.user_data` that the state machine mutates.
`poems_used` is always present once a dialog exists (`enter_dialog` seeds it
and `stop_dialog` removes it together with `dialog_author_id`), so it is a
plain list here and the `setdefault` on the greeting path is a no-op. -/
structure Session where
  stage : Str
  userName : Option Str
  poemsUsed : List Str
deriving DecidableEq

def askNameL : Str := str "ask_name"
def offerPoemL : Str := str "offer_poem"
def afterPoemL : Str := str "after_poem"

def greetingsList : List Str :=
  [str "привет", str "здравствуй", str "здравствуйте"]

def greetMsg : Str :=
  str "Привет! Меня зовут Александр Сергеевич Пушкин! Как тебя зовут?"

def repromptNameMsg : Str :=
  str "Не расслышал имени — повторите, пожалуйста."

def repromptIntroMsg : Str :=
  str "Давайте всё же представимся — как к вам обращаться?"

def offerReply (name : Str) : Str :=
  str "Привет, " ++ name ++ str "! Хочешь, расскажу стих?"

def declineOfferMsg : Str :=
  str "Как скажешь! Но знай: мой стих всегда на изготовке, стоит лишь щёлкнуть веером."

def declineAfterMsg : Str :=
  str "Хорошо, приберегу рифмы до лучшего случая. Но стоит вам мигнуть — и я снова в строю!"

def noPoemMsg : Str :=
  str "Похоже, сейчас подходящих стихов под рукой нет."

def poemReply (p : RandPoem) : Str := p.title ++ nl2 ++ p.text

def listingReply (db : AuthorData) : Str :=
  str "Могу рассказать стихи: " ++ joinSep (str ", ") (get_poem_titles db) ++
    str ". Уточните, какой вам нужен."

/-- Result of one turn: the texts sent to the user, the updated session,
and (ghost data for the delivery invariant) the titles of poems delivered
through the random-poem path this turn. -/
structure TurnResult where
  replies : List Str
  session : Session
  sent : List Str
deriving DecidableEq

/-- The one unhandled exception the turn can raise: the `IndexError` from
`name_candidate.split()[0]` (handlers.py line 179) when the punctuation
strip leaves a non-empty candidate that has no whitespace-delimited token
(e.g. a lone tab).  It propagates out of the handler: no reply is sent and
the session is not mutated. -/
inductive PyError where
  | indexError
deriving DecidableEq

deriving instance DecidableEq for Except

structure PoemSend where
  replies : List Str
  session : Session
  sent : List Str
  ok : Bool
deriving DecidableEq

/-- `WriterBotHandlers._send_random_poem` (handlers.py lines 276-288). -/
def send_random_poem (db : AuthorData) (p1 p2 : Nat) (s : Session) : PoemSend :=
  match get_random_poem db p1 (some s.poemsUsed) with
  | some poem =>
    ⟨[poemReply poem], { s with poemsUsed := s.poemsUsed ++ [poem.title] },
      [poem.title], true⟩
  | none =>
    match get_random_poem db p2 none with
    | none => ⟨[noPoemMsg], { s with poemsUsed := [] }, [], false⟩
    | some poem =>
      ⟨[poemReply poem], { s with poemsUsed := [poem.title] },
        [poem.title], true⟩

/-- Decline condition of the `offer_poem` branch (handlers.py line 187). -/
def declineOfferB (tl : Str) : Bool :=
  interAny (tokenize tl) [str "нет", str "неа"] ||
    hasSub (str "не хочу") tl || hasSub (str "не надо") tl

/-- Acceptance condition of the `offer_poem` branch (lines 192-195). -/
def acceptOfferB (tl : Str) : Bool :=
  ([str "расскажи", str "давай", str "прочитай"].any fun ph => hasSub ph tl) ||
    interAny (tokenize tl) [str "да", str "хочу", str "конечно", str "ага"]

/-- "One more poem" condition of the `after_poem` branch (lines 201-202). -/
def moreAfterB (tl : Str) : Bool :=
  (hasSub (str "ещё") tl || hasSub (str "еще") tl) &&
    (hasSub (str "расскажи") tl || hasSub (str "прочитай") tl ||
      hasSub (str "стих") tl)

/-- Decline condition of the `after_poem` branch (line 207). -/
def declineAfterB (tl : Str) : Bool :=
  interAny (tokenize tl) [str "нет", str "хватит", str "достаточно"] ||
    hasSub (str "не надо") tl

def menyaZovut : Str := str "меня зовут"
def menyaW : Str := str "меня"

/-- The pre-strip name candidate of the name-capture branch (handlers.py
lines 166-174): the substring after "меня зовут" when present (searched in
the lowercased input, sliced from the original), else the second word when
the input starts with "меня" and has at least two words, else the trimmed
whole input. -/
def nameCandidateOf (text : Str) : Str :=
  let cleaned := stripWs text
  let lowerCleaned := lowerL cleaned
  if hasSub menyaZovut lowerCleaned then
    stripWs (cleaned.drop (subIdx menyaZovut lowerCleaned + menyaZovut.length))
  else if pref menyaW lowerCleaned then
    let parts := splitWs cleaned
    if 2 ≤ parts.length then parts.getD 1 [] else cleaned
  else cleaned

/-- Name-capture branch (handlers.py lines 161-183); the candidate
computation is factored into `nameCandidateOf` (it recomputes the same
`cleaned`).  `name_candidate.split()[0]` raises `IndexError` when the split
yields no token; every other path returns normally. -/
def askNameTurn (s : Session) (text : Str) : Except PyError TurnResult :=
  let cleaned := stripWs text
  if cleaned.isEmpty then .ok ⟨[repromptNameMsg], s, []⟩
  else
    let nameCandidate := stripOf nameStripChars (nameCandidateOf text)
    if nameCandidate.isEmpty then .ok ⟨[repromptIntroMsg], s, []⟩
    else
      match splitWs nameCandidate with
      | [] => .error .indexError
      | name :: _ =>
        .ok ⟨[offerReply name],
          { s with userName := some name, stage := offerPoemL }, []⟩

/-- Resolution chain (handlers.py lines 213-236): poem text, poem listing,
character insight, FAQ, generative fallback on the raw text. -/
def chainTurn (db : AuthorData) (ai : Str → Str) (textLower rawText : Str)
    (s : Session) : TurnResult :=
  match find_poem_text db textLower with
  | some ans => ⟨[ans], s, []⟩
  | none =>
    if hasSub (str "расскажи") textLower && hasSub (str "стих") textLower then
      ⟨[listingReply db], s, []⟩
    else match find_character_insight db textLower with
    | some ans => ⟨[ans], s, []⟩
    | none =>
      match find_faq_answer db textLower with
      | some ans => ⟨[ans], s, []⟩
      | none => ⟨[ai rawText], s, []⟩

/-- Everything `handle_dialog_message` does after the greeting interception
(handlers.py lines 161-236): stage rules with fall-through, then the
resolution chain. -/
def stage_and_chain (db : AuthorData) (ai : Str → Str) (p1 p2 : Nat)
    (s : Session) (text : Str) : Except PyError TurnResult :=
  let textLower := lowerL text
  if s.stage == askNameL then askNameTurn s text
  else if s.stage == offerPoemL && declineOfferB textLower then
    .ok ⟨[declineOfferMsg], s, []⟩
  else if s.stage == offerPoemL && acceptOfferB textLower then
    let r := send_random_poem db p1 p2 s
    .ok (if r.ok then ⟨r.replies, { r.session with stage := afterPoemL }, r.sent⟩
      else ⟨r.replies, r.session, r.sent⟩)
  else if s.stage == afterPoemL && moreAfterB textLower then
    let r := send_random_poem db p1 p2 s
    .ok (if r.ok then ⟨r.replies, { r.session with stage := afterPoemL }, r.sent⟩
      else ⟨r.replies, r.session, r.sent⟩)
  else if s.stage == afterPoemL && declineAfterB textLower then
    .ok ⟨[declineAfterMsg], s, []⟩
  else .ok (chainTurn db ai textLower text s)

/-- `WriterBotHandlers.handle_dialog_message` (handlers.py lines 135-236),
for a session whose author was found.  The greeting interception compares
the whole lowercased message against the greeting set and fires only when
the stage is not `ask_name`; its `setdefault("poems_used", [])` leaves an
existing exclusion list untouched. -/
def handle_dialog_message (db : AuthorData) (ai : Str → Str) (p1 p2 : Nat)
    (s : Session) (text : Str) : Except PyError TurnResult :=
  let textLower := lowerL text
  if greetingsList.contains textLower && !(s.stage == askNameL) then
    .ok ⟨[greetMsg], { s with stage := askNameL }, []⟩
  else stage_and_chain db ai p1 p2 s text

/-- The session after a turn: on a normal return, the updated session; when
the exception propagates, the handler has mutated nothing (the assignments
at handlers.py lines 180-181 come after the raising line 179). -/
def turnSession (s : Session) (r : Except PyError TurnResult) : Session :=
  match r with
  | .ok t => t.session
  | .error _ => s

/-- The poem titles delivered during a turn; none when it raised. -/
def turnSent (r : Except PyError TurnResult) : List Str :=
  match r with
  | .ok t => t.sent
  | .error _ => []

/-! ## Generative fallback adapter (ai.py) -/

/-- Outcome of the upstream call in `WriterAI.generate_reply`: either the
caught `APIError` (with its optional `code` attribute) or the provider's
`output_text`. -/
inductive UpstreamOutcome where
  | apiError (code : Option Str)
  | output (text : Str)
deriving DecidableEq

def degradedBase : Str :=
  str "Не удалось связаться с литературной музой — сервер ответил ошибкой и оборвал беседу. Я уже готовлю перо к новой попытке, попробуйте написать ещё раз через минутку."

def lostMsg : Str :=
  str "Я задумался так глубоко, что чернила застенчиво спрятались. Попробуйте переформулировать вопрос — и я отвечу с прежним пушкинским задором!"

/-- The `(код ошибки {code})` suffix, appended only when the error carries
a truthy code. -/
def errSuffix (code : Option Str) : Str :=
  match code with
  | some c => if c.isEmpty then [] else str " (код ошибки " ++ c ++ str ")"
  | none => []

/-- `WriterAI.generate_reply` (ai.py lines 17-56). -/
def generate_reply (o : UpstreamOutcome) : Str :=
  match o with
  | .apiError code => degradedBase ++ errSuffix code
  | .output out =>
    let t := stripWs out
    if t.isEmpty then lostMsg else t

/-! ## Spec-side definitions -/

/-- Which state-machine rules short-circuit the turn: the greeting
interception, any `ask_name` input, the decline/accept rules of
`offer_poem` and the more/decline rules of `after_poem`. -/
def intercepted (s : Session) (text : Str) : Bool :=
  let tl := lowerL text
  (greetingsList.contains tl && !(s.stage == askNameL)) ||
    s.stage == askNameL ||
    (s.stage == offerPoemL && (declineOfferB tl || acceptOfferB tl)) ||
    (s.stage == afterPoemL && (moreAfterB tl || declineAfterB tl))

/-- The resolution chain as the spec states it (§4.2): strict precedence,
first match wins, steps 1-4 tried against the normalized lowercase message,
step 5 delegating to the fallback adapter with the raw message. -/
def resolutionChainSpec (db : AuthorData) (ai : Str → Str) (text : Str) :
    Str :=
  let normalized := lowerL text
  match db.poems.find? fun p => kwAnyMatch p.keywords normalized with
  | some p => p.title ++ nl2 ++ p.text
  | none =>
    if hasSub (str "расскажи") normalized && hasSub (str "стих") normalized then
      listingReply db
    else match db.characters.find? fun c => kwAnyMatch c.keywords normalized with
    | some c => c.name ++ str ": " ++ c.description
    | none =>
      match db.faq.find? fun f => kwAnyMatch f.keywords normalized with
      | some f => f.answer
      | none => ai text

/-- Name extraction exactly as the spec words it: compute the candidate,
then take the first whitespace-delimited token of the candidate, then strip
surrounding punctuation from that token. -/
def specExtractName (text : Str) : Str :=
  let cleaned := stripWs text
  let lowerCleaned := lowerL cleaned
  let candidate :=
    if hasSub menyaZovut lowerCleaned then
      cleaned.drop (subIdx menyaZovut lowerCleaned + menyaZovut.length)
    else if pref menyaW lowerCleaned && 2 ≤ (splitWs cleaned).length then
      (splitWs cleaned).getD 1 []
    else cleaned
  stripOf nameStripChars ((splitWs candidate).headD [])

/-- Name extraction as the code performs it: compute the candidate, strip
surrounding punctuation and spaces from the whole candidate first, then
take its first whitespace-delimited token; `none` when there is no token,
the case in which `split()[0]` raises `IndexError`. -/
def codeExtractName (text : Str) : Option Str :=
  (splitWs (stripOf nameStripChars (nameCandidateOf text))).head?

def titlesOf (db : AuthorData) : List Str := db.poems.map (·.title)

/-- Repeated invocation of the poem-delivery operation: the list of
delivered titles in order, and the final session. -/
def runPicker (db : AuthorData) (s : Session) :
    List (Nat × Nat) → List Str × Session
  | [] => ([], s)
  | pr :: rest =>
    let r := send_random_poem db pr.1 pr.2 s
    let rec2 := runPicker db r.session rest
    (r.sent ++ rec2.1, rec2.2)

/-- Sessions reachable from dialogue entry (`enter_dialog` initializes the
stage to `ask_name` with an empty exclusion list), paired with the history
of poem titles actually delivered to the user. -/
inductive Reach (db : AuthorData) : Session → List Str → Prop
  | init : Reach db ⟨askNameL, none, []⟩ []
  | step {s h} (ai : Str → Str) (p1 p2 : Nat) (text : Str) :
      Reach db s h →
      Reach db (turnSession s (handle_dialog_message db ai p1 p2 s text))
        (h ++ turnSent (handle_dialog_message db ai p1 p2 s text))

/-- Witness content: the seeded author data used on concrete inputs. -/
def dbW : AuthorData :=
  ⟨[⟨str "Узник", str "Сижу за решеткой в темнице сырой",
      [str "узник", str "орёл"]⟩],
    [⟨str "Где родился Пушкин", str "В Москве", [str "родился"]⟩],
    [⟨str "Онегин", str "герой романа", [str "онегин"]⟩]⟩

/-- Witness content with two poems of distinct titles. -/
def dbW2 : AuthorData :=
  ⟨[⟨str "Узник", str "Сижу за решеткой в темнице сырой",
      [str "узник"]⟩,
    ⟨str "Зимний вечер", str "Буря мглою небо кроет",
      [str "зимний"]⟩],
    [], []⟩

def aiW : Str → Str := fun _ => str "ответ музы"

def sOffW : Session := ⟨offerPoemL, some (str "Ваня"), []⟩

/-! ## Helper lemmas -/

theorem lowerN_idem (n : Nat) : lowerN (lowerN n) = lowerN n := by
  unfold lowerN
  split_ifs <;> omega

theorem lowerL_idem (s : Str) : lowerL (lowerL s) = lowerL s := by
  induction s with
  | nil => rfl
  | cons a t ih =>
    simp only [lowerL, List.map_cons] at ih ⊢
    rw [lowerN_idem]
    exact congrArg _ ih

theorem bool_eq_true_of_not_false {b : Bool} (h : ¬b = false) : b = true := by
  cases b <;> simp_all

theorem boolAnd_or_left {a b c : Bool} (h : (a && (b || c)) = false) :
    (a && b) = false := by
  cases a <;> cases b <;> cases c <;> simp_all

theorem boolAnd_or_right {a b c : Bool} (h : (a && (b || c)) = false) :
    (a && c) = false := by
  cases a <;> cases b <;> cases c <;> simp_all

theorem greetings_cases {tl : Str} (h : greetingsList.contains tl = true) :
    tl = str "привет" ∨ tl = str "здравствуй" ∨ tl = str "здравствуйте" := by
  simpa [greetingsList] using h

theorem greeting_declineOffer_false {tl : Str}
    (h : greetingsList.contains tl = true) : declineOfferB tl = false := by
  rcases greetings_cases h with h | h | h <;> subst h <;> decide

theorem greeting_declineAfter_false {tl : Str}
    (h : greetingsList.contains tl = true) : declineAfterB tl = false := by
  rcases greetings_cases h with h | h | h <;> subst h <;> decide

/-- If the greeting interception does not fire, the turn is handled by the
stage rules and the resolution chain. -/
theorem handle_eq_stage_and_chain (db : AuthorData) (ai : Str → Str)
    (p1 p2 : Nat) (s : Session) (text : Str)
    (h : greetingsList.contains (lowerL text) = false) :
    handle_dialog_message db ai p1 p2 s text =
      stage_and_chain db ai p1 p2 s text := by
  unfold handle_dialog_message
  simp only [h, Bool.false_and, Bool.false_eq_true, if_false]

/-- If no state-machine rule fires, the turn is resolved by the chain. -/
theorem handle_of_not_intercepted (db : AuthorData) (ai : Str → Str)
    (p1 p2 : Nat) (s : Session) (text : Str)
    (h : intercepted s text = false) :
    handle_dialog_message db ai p1 p2 s text =
      .ok (chainTurn db ai (lowerL text) text s) := by
  unfold intercepted at h
  simp only [Bool.or_eq_false_iff] at h
  obtain ⟨⟨⟨hg, hn⟩, hoff⟩, haft⟩ := h
  unfold handle_dialog_message stage_and_chain
  simp only [hg, Bool.false_eq_true, if_false]
  simp only [hn, Bool.false_eq_true, if_false,
    boolAnd_or_left hoff, boolAnd_or_right hoff,
    boolAnd_or_left haft, boolAnd_or_right haft]

theorem chainTurn_eq_spec (db : AuthorData) (ai : Str → Str) (s : Session)
    (text : Str) :
    chainTurn db ai (lowerL text) text s =
      ⟨[resolutionChainSpec db ai text], s, []⟩ := by
  unfold chainTurn resolutionChainSpec find_poem_text find_character_insight
    find_faq_answer
  simp only [lowerL_idem]
  cases hp : db.poems.find? fun p => kwAnyMatch p.keywords (lowerL text) with
  | some p => simp [hp]
  | none =>
    simp only [hp, Option.map_none']
    split_ifs with hlist
    · rfl
    · cases hc : db.characters.find? fun c => kwAnyMatch c.keywords (lowerL text) with
      | some c => simp [hc]
      | none =>
        simp only [hc, Option.map_none']
        cases hf : db.faq.find? fun f => kwAnyMatch f.keywords (lowerL text) with
        | some f => simp [hf]
        | none => simp [hf]

theorem chainTurn_session (db : AuthorData) (ai : Str → Str)
    (tl t : Str) (s : Session) : (chainTurn db ai tl t s).session = s := by
  unfold chainTurn
  cases find_poem_text db tl with
  | some a => rfl
  | none =>
    split_ifs with h
    · rfl
    · cases find_character_insight db tl with
      | some a => rfl
      | none =>
        cases find_faq_answer db tl with
        | some a => rfl
        | none => rfl

/-! ## Claim theorems -/

/-- C1: for every session whose state-machine rules did not short-circuit
the turn, the reply is the resolution chain's reply: poem-text lookup, then
poem-listing intent, then character lookup, then FAQ lookup, each against
the normalized lowercase message, and otherwise the generative fallback on
the raw message, returned verbatim; the first matching step wins and the
session is left unchanged. -/
theorem C1_resolution_order (db : AuthorData) (ai : Str → Str) (p1 p2 : Nat)
    (s : Session) (text : Str) (h : intercepted s text = false) :
    handle_dialog_message db ai p1 p2 s text =
      .ok ⟨[resolutionChainSpec db ai text], s, []⟩ := by
  rw [handle_of_not_intercepted db ai p1 p2 s text h,
    chainTurn_eq_spec db ai s text]

/-- Witness for C1 at a non-intercepted turn. -/
theorem C1_witness :
    intercepted sOffW (str "кто ты") = false ∧
      handle_dialog_message dbW aiW 0 0 sOffW (str "кто ты") =
        .ok ⟨[resolutionChainSpec dbW aiW (str "кто ты")], sOffW, []⟩ :=
  ⟨by decide, C1_resolution_order dbW aiW 0 0 sOffW (str "кто ты") (by decide)⟩

/-- C3 counterexample: a greeting received in `offer_poem` with a non-empty
exclusion set does send the scripted greeting and moves the stage to
`ask_name`, but leaves `poems_used` untouched instead of resetting it
(the code uses `setdefault`, which does not overwrite). -/
theorem C3_counterexample :
    handle_dialog_message dbW aiW 0 0
        ⟨offerPoemL, some (str "Ваня"), [str "Узник"]⟩ (str "привет") =
      .ok ⟨[greetMsg], ⟨askNameL, some (str "Ваня"), [str "Узник"]⟩, []⟩ ∧
      ([str "Узник"] : List Str) ≠ [] := by
  exact ⟨by decide, by decide⟩

/-- C3 amended: for every session whose stage is not `ask_name`, a greeting
phrase sends the scripted greeting and moves the stage to `ask_name`; the
`poems_used` exclusion set is initialized only when absent and otherwise
left unchanged (it is not reset). -/
theorem C3_greeting_amended (db : AuthorData) (ai : Str → Str) (p1 p2 : Nat)
    (s : Session) (text : Str)
    (hg : greetingsList.contains (lowerL text) = true)
    (hs : s.stage ≠ askNameL) :
    handle_dialog_message db ai p1 p2 s text =
      .ok ⟨[greetMsg], { s with stage := askNameL }, []⟩ := by
  have hb : (s.stage == askNameL) = false := by
    simpa using hs
  unfold handle_dialog_message
  simp only [hg, hb, Bool.not_false, Bool.and_true, if_true]

/-- Witness for C3's amended claim, on a capitalized greeting. -/
theorem C3_witness :
    handle_dialog_message dbW aiW 0 0
        ⟨afterPoemL, some (str "Ваня"), [str "Узник"]⟩ (str "Привет") =
      .ok ⟨[greetMsg], ⟨askNameL, some (str "Ваня"), [str "Узник"]⟩, []⟩ :=
  C3_greeting_amended dbW aiW 0 0 _ _ (by decide) (by decide)

/-- The `ask_name` branch on a non-empty input whose candidate survives the
punctuation strip: the first token of the stripped candidate becomes the
name, and when there is no token `split()[0]` raises. -/
theorem askNameTurn_eq (s : Session) (text : Str)
    (hne : (stripWs text).isEmpty = false)
    (hcand : (stripOf nameStripChars (nameCandidateOf text)).isEmpty = false) :
    askNameTurn s text =
      match codeExtractName text with
      | some name => .ok ⟨[offerReply name],
          { s with userName := some name, stage := offerPoemL }, []⟩
      | none => .error PyError.indexError := by
  unfold askNameTurn codeExtractName
  simp only [hne, hcand, Bool.false_eq_true, if_false]
  split
  · rename_i heq
    simp [heq]
  · rename_i name rest heq
    simp [heq]

/-- C4 counterexample: in `ask_name`, the input whose candidate is
`"Пётр, друг"` is captured by the code as `"Пётр,"` (punctuation is
stripped from the whole candidate before the first token is taken), while
the spec's algorithm (first token, then strip punctuation) yields
`"Пётр"`. -/
theorem C4_counterexample :
    handle_dialog_message dbW aiW 0 0 ⟨askNameL, none, []⟩
        (str "Пётр, друг") =
      .ok ⟨[offerReply (str "Пётр,")],
        ⟨offerPoemL, some (str "Пётр,"), []⟩, []⟩ ∧
      specExtractName (str "Пётр, друг") = str "Пётр" ∧
      (str "Пётр," : Str) ≠ str "Пётр" := by
  exact ⟨by decide, by decide, by decide⟩

/-- C4 amended: the captured name is computed by the candidate rules of the
spec, but surrounding punctuation and spaces are stripped from the whole
candidate first and its first whitespace-delimited token is taken second
(`codeExtractName`); when a token exists, the reply and the transition to
`offer_poem` are as claimed, and when the stripped candidate has no token
(it is all non-space whitespace) `split()[0]` raises `IndexError`: the turn
sends nothing and mutates nothing. -/
theorem C4_name_capture_amended (db : AuthorData) (ai : Str → Str)
    (p1 p2 : Nat) (s : Session) (text : Str)
    (hstage : s.stage = askNameL)
    (hne : (stripWs text).isEmpty = false)
    (hcand : (stripOf nameStripChars (nameCandidateOf text)).isEmpty = false) :
    (∀ name, codeExtractName text = some name →
      handle_dialog_message db ai p1 p2 s text =
        .ok ⟨[offerReply name], ⟨offerPoemL, some name, s.poemsUsed⟩, []⟩) ∧
      (codeExtractName text = none →
        handle_dialog_message db ai p1 p2 s text =
          .error PyError.indexError) := by
  have hb : (s.stage == askNameL) = true := by simp [hstage]
  have hh : handle_dialog_message db ai p1 p2 s text = askNameTurn s text := by
    unfold handle_dialog_message stage_and_chain
    simp only [hb, Bool.not_true, Bool.and_false, Bool.false_eq_true,
      if_false, if_true]
  rw [hh, askNameTurn_eq s text hne hcand]
  constructor
  · intro name hname
    rw [hname]
  · intro hname
    rw [hname]

/-- Witness for C4's amended claim: the spec's own example input, and the
raising input whose stripped candidate is a lone tab. -/
theorem C4_witness :
    codeExtractName (str "меня зовут Пётр") = some (str "Пётр") ∧
      handle_dialog_message dbW aiW 0 0 ⟨askNameL, none, []⟩
          (str "меня зовут Пётр") =
        .ok ⟨[offerReply (str "Пётр")],
          ⟨offerPoemL, some (str "Пётр"), []⟩, []⟩ ∧
      codeExtractName (str ", \t ,") = none ∧
      handle_dialog_message dbW aiW 0 0 ⟨askNameL, none, []⟩
          (str ", \t ,") =
        .error PyError.indexError :=
  ⟨by decide,
    (C4_name_capture_amended dbW aiW 0 0 ⟨askNameL, none, []⟩
        (str "меня зовут Пётр") rfl (by decide) (by decide)).1
      (str "Пётр") (by decide),
    by decide,
    (C4_name_capture_amended dbW aiW 0 0 ⟨askNameL, none, []⟩
        (str ", \t ,") rfl (by decide) (by decide)).2 (by decide)⟩

/-- C5 counterexample: the degraded-mode reply is not one fixed string; it
varies with the provider's error code. -/
theorem C5_counterexample :
    generate_reply (.apiError (some (str "500"))) ≠
      generate_reply (.apiError none) := by decide

/-- C5 amended: `generate_reply` is total (never raises in the model): on
upstream error it returns the degraded-mode apology, a fixed base with the
error code appended when a truthy code is present; on blank output it
returns the distinct fixed lost-in-thought string, and on non-blank output
the stripped text; when the fallback is reached the turn leaves the whole
session, in particular its stage, unchanged. -/
theorem C5_fallback_amended (code : Option Str) (out : Str)
    (db : AuthorData) (ai : Str → Str) (p1 p2 : Nat) (s : Session)
    (text : Str) :
    generate_reply (.apiError code) = degradedBase ++ errSuffix code ∧
      ((stripWs out).isEmpty = true → generate_reply (.output out) = lostMsg) ∧
      ((stripWs out).isEmpty = false →
        generate_reply (.output out) = stripWs out) ∧
      degradedBase ≠ lostMsg ∧
      (intercepted s text = false →
        ∃ r, handle_dialog_message db ai p1 p2 s text = Except.ok r ∧
          r.session = s) := by
  refine ⟨rfl, ?_, ?_, by decide, ?_⟩
  · intro h; simp [generate_reply, h]
  · intro h; simp [generate_reply, h]
  · intro h
    exact ⟨chainTurn db ai (lowerL text) text s,
      handle_of_not_intercepted db ai p1 p2 s text h,
      chainTurn_session db ai (lowerL text) text s⟩

/-- Witness for C5's amended claim. -/
theorem C5_witness :
    generate_reply (.apiError (some (str "429"))) =
        degradedBase ++ errSuffix (some (str "429")) ∧
      generate_reply (.output (str "   ")) = lostMsg ∧
      turnSession sOffW
          (handle_dialog_message dbW aiW 0 0 sOffW (str "что нового")) =
        sOffW :=
  ⟨(C5_fallback_amended (some (str "429")) (str "   ") dbW aiW 0 0 sOffW
      (str "что нового")).1,
    (C5_fallback_amended (some (str "429")) (str "   ") dbW aiW 0 0 sOffW
      (str "что нового")).2.1 (by decide),
    by
      obtain ⟨r, hok, hs⟩ :=
        (C5_fallback_amended (some (str "429")) (str "   ") dbW aiW 0 0 sOffW
          (str "что нового")).2.2.2.2 (by decide)
      rw [hok]
      exact hs⟩

/-- C6 counterexample: in `after_poem`, the decline input
`"ещё стих нет"` (its token set contains "нет") is captured by the
more-poem rule first: the picker is invoked and a poem is delivered, no
decline acknowledgement is sent. -/
theorem C6_counterexample :
    declineAfterB (lowerL (str "ещё стих нет")) = true ∧
      handle_dialog_message dbW aiW 0 0 ⟨afterPoemL, some (str "Ваня"), []⟩
          (str "ещё стих нет") =
        .ok ⟨[poemReply ⟨str "Узник", str "Сижу за решеткой в темнице сырой"⟩],
          ⟨afterPoemL, some (str "Ваня"), [str "Узник"]⟩, [str "Узник"]⟩ := by
  exact ⟨by decide, by decide⟩

/-- C6 amended: decline inputs send the decline acknowledgement, leave the
stage unchanged and do not invoke the picker — in `offer_poem` always, in
`after_poem` provided the more-poem rule (checked first) does not also
match. -/
theorem C6_decline_amended (db : AuthorData) (ai : Str → Str) (p1 p2 : Nat)
    (s : Session) (text : Str) :
    (s.stage = offerPoemL → declineOfferB (lowerL text) = true →
      handle_dialog_message db ai p1 p2 s text =
        .ok ⟨[declineOfferMsg], s, []⟩) ∧
      (s.stage = afterPoemL → moreAfterB (lowerL text) = false →
        declineAfterB (lowerL text) = true →
        handle_dialog_message db ai p1 p2 s text =
          .ok ⟨[declineAfterMsg], s, []⟩) := by
  constructor
  · intro hstage hdecl
    have hg : greetingsList.contains (lowerL text) = false := by
      by_contra hc
      have := greeting_declineOffer_false (bool_eq_true_of_not_false hc)
      simp [this] at hdecl
    rw [handle_eq_stage_and_chain db ai p1 p2 s text hg]
    unfold stage_and_chain
    have h1 : (s.stage == askNameL) = false := by rw [hstage]; decide
    have h2 : (s.stage == offerPoemL) = true := by simp [hstage]
    simp only [h1, Bool.false_eq_true, if_false, h2, hdecl, Bool.and_true,
      Bool.true_and, if_true]
  · intro hstage hmore hdecl
    have hg : greetingsList.contains (lowerL text) = false := by
      by_contra hc
      have := greeting_declineAfter_false (bool_eq_true_of_not_false hc)
      simp [this] at hdecl
    rw [handle_eq_stage_and_chain db ai p1 p2 s text hg]
    unfold stage_and_chain
    have h1 : (s.stage == askNameL) = false := by rw [hstage]; decide
    have h2 : (s.stage == offerPoemL) = false := by rw [hstage]; decide
    have h3 : (s.stage == afterPoemL) = true := by simp [hstage]
    simp only [h1, h2, h3, hmore, hdecl, Bool.false_eq_true, Bool.false_and,
      Bool.true_and, Bool.and_true, if_false, if_true]

/-- Witness for C6's amended claim, including the spec's own
`"нет, хватит"` example. -/
theorem C6_witness :
    handle_dialog_message dbW aiW 0 0 sOffW (str "не хочу") =
        .ok ⟨[declineOfferMsg], sOffW, []⟩ ∧
      handle_dialog_message dbW aiW 0 0 ⟨afterPoemL, some (str "Ваня"), []⟩
          (str "нет, хватит") =
        .ok ⟨[declineAfterMsg], ⟨afterPoemL, some (str "Ваня"), []⟩, []⟩ :=
  ⟨(C6_decline_amended dbW aiW 0 0 sOffW (str "не хочу")).1 rfl (by decide),
    (C6_decline_amended dbW aiW 0 0 ⟨afterPoemL, some (str "Ваня"), []⟩
        (str "нет, хватит")).2 rfl (by decide) (by decide)⟩

/-- C7: an empty or whitespace-only input in `ask_name` sends the name
reprompt and changes nothing: stage, name and exclusion set all stay. -/
theorem C7_blank_name_reprompt (db : AuthorData) (ai : Str → Str)
    (p1 p2 : Nat) (s : Session) (text : Str)
    (hstage : s.stage = askNameL) (hblank : stripWs text = []) :
    handle_dialog_message db ai p1 p2 s text =
      .ok ⟨[repromptNameMsg], s, []⟩ := by
  have hb : (s.stage == askNameL) = true := by simp [hstage]
  unfold handle_dialog_message stage_and_chain askNameTurn
  simp only [hb, Bool.not_true, Bool.and_false, Bool.false_eq_true, if_false,
    if_true, hblank, List.isEmpty_nil]

/-- Witness for C7: the spec's whitespace-only example. -/
theorem C7_witness :
    handle_dialog_message dbW aiW 0 0 ⟨askNameL, some (str "Ваня"), []⟩
        (str "   ") =
      .ok ⟨[repromptNameMsg], ⟨askNameL, some (str "Ваня"), []⟩, []⟩ :=
  C7_blank_name_reprompt dbW aiW 0 0 ⟨askNameL, some (str "Ваня"), []⟩
    (str "   ") rfl (by decide)

/-- C9: the greeting interception requires the whole lowercased message to
be a member of the greeting set; any message whose lowercase form is not
exactly a greeting phrase falls through to the stage rules and the
resolution chain. -/
theorem C9_greeting_exact_only (db : AuthorData) (ai : Str → Str)
    (p1 p2 : Nat) (s : Session) (text : Str)
    (h : greetingsList.contains (lowerL text) = false) :
    handle_dialog_message db ai p1 p2 s text =
      stage_and_chain db ai p1 p2 s text :=
  handle_eq_stage_and_chain db ai p1 p2 s text h

/-- Witness for C9: `"привет!"` contains a greeting but is not one. -/
theorem C9_witness :
    greetingsList.contains (lowerL (str "привет!")) = false ∧
      handle_dialog_message dbW aiW 0 0 sOffW (str "привет!") =
        stage_and_chain dbW aiW 0 0 sOffW (str "привет!") :=
  ⟨by decide, C9_greeting_exact_only dbW aiW 0 0 sOffW (str "привет!")
    (by decide)⟩

/-- C10: in `offer_poem` the decline check precedes the affirmation check:
an input satisfying both sends the decline acknowledgement, does not invoke
the picker and does not transition to `after_poem`. -/
theorem C10_decline_before_accept (db : AuthorData) (ai : Str → Str)
    (p1 p2 : Nat) (s : Session) (text : Str)
    (hstage : s.stage = offerPoemL)
    (hdecl : declineOfferB (lowerL text) = true)
    (_hacc : acceptOfferB (lowerL text) = true) :
    handle_dialog_message db ai p1 p2 s text =
      .ok ⟨[declineOfferMsg], s, []⟩ := by
  have hg : greetingsList.contains (lowerL text) = false := by
    by_contra hc
    have := greeting_declineOffer_false (bool_eq_true_of_not_false hc)
    simp [this] at hdecl
  rw [handle_eq_stage_and_chain db ai p1 p2 s text hg]
  unfold stage_and_chain
  have h1 : (s.stage == askNameL) = false := by rw [hstage]; decide
  have h2 : (s.stage == offerPoemL) = true := by simp [hstage]
  simp only [h1, Bool.false_eq_true, if_false, h2, hdecl, Bool.and_true,
    Bool.true_and, if_true]

/-- Witness for C10 on an input matching both rules. -/
theorem C10_witness :
    declineOfferB (lowerL (str "нет хочу")) = true ∧
      acceptOfferB (lowerL (str "нет хочу")) = true ∧
      handle_dialog_message dbW aiW 0 0 sOffW (str "нет хочу") =
        .ok ⟨[declineOfferMsg], sOffW, []⟩ :=
  ⟨by decide, by decide,
    C10_decline_before_accept dbW aiW 0 0 sOffW (str "нет хочу") rfl
      (by decide) (by decide)⟩

/-! ## Delivery invariant (C8) -/

theorem turnSession_ok (s : Session) (t : TurnResult) :
    turnSession s (.ok t) = t.session := rfl

theorem turnSent_ok (t : TurnResult) : turnSent (.ok t) = t.sent := rfl

theorem askNameTurn_poemsUsed (s : Session) (text : Str) :
    (turnSession s (askNameTurn s text)).poemsUsed = s.poemsUsed := by
  simp only [askNameTurn]
  split_ifs <;> first | rfl | (split <;> rfl)

theorem send_poemsUsed_sub (db : AuthorData) (p1 p2 : Nat) (s : Session) :
    ∀ t ∈ (send_random_poem db p1 p2 s).session.poemsUsed,
      t ∈ s.poemsUsed ∨ t ∈ (send_random_poem db p1 p2 s).sent := by
  intro t ht
  unfold send_random_poem at ht ⊢
  rcases hg : get_random_poem db p1 (some s.poemsUsed) with _ | poem <;>
    simp only [hg] at ht ⊢
  · rcases hg2 : get_random_poem db p2 none with _ | poem2 <;>
      simp only [hg2] at ht ⊢
    · simp at ht
    · simp at ht
      subst ht
      simp
  · simp at ht
    rcases ht with h | h
    · exact Or.inl h
    · subst h
      simp

theorem handle_poemsUsed_sub (db : AuthorData) (ai : Str → Str)
    (p1 p2 : Nat) (s : Session) (text : Str) :
    ∀ t ∈ (turnSession s (handle_dialog_message db ai p1 p2 s text)).poemsUsed,
      t ∈ s.poemsUsed ∨
        t ∈ turnSent (handle_dialog_message db ai p1 p2 s text) := by
  intro t ht
  simp only [handle_dialog_message, stage_and_chain] at ht ⊢
  split_ifs at ht ⊢ with h1 h2 h3 h4 h5 h6 h7 h8 <;>
    (try simp only [turnSession_ok, turnSent_ok] at ht ⊢)
  all_goals
    first
      | exact Or.inl ht
      | (rw [askNameTurn_poemsUsed] at ht; exact Or.inl ht)
      | (rw [chainTurn_session] at ht; exact Or.inl ht)
      | exact send_poemsUsed_sub db p1 p2 s t ht

/-- C8: in every reachable session state, every title in the session's
exclusion set (`poems_used`) is the title of a poem actually delivered
earlier in the session: dialogue entry starts from the empty set, and only
the poem-delivery path extends it, with exactly the delivered title. -/
theorem C8_shown_titles_were_sent (db : AuthorData) (s : Session)
    (h : List Str) (hr : Reach db s h) : ∀ t ∈ s.poemsUsed, t ∈ h := by
  induction hr with
  | init => simp
  | step ai p1 p2 text _ ih =>
    intro t ht
    rcases handle_poemsUsed_sub db ai p1 p2 _ text t ht with hm | hm
    · exact List.mem_append_left _ (ih t hm)
    · exact List.mem_append_right _ hm

/-- Witness for C8 on a concrete two-turn reachable session: after the
name turn and a poem delivery, the recorded title was indeed sent. -/
theorem C8_witness :
    str "Узник" ∈
      (([] : List Str) ++
          turnSent (handle_dialog_message dbW aiW 0 0 ⟨askNameL, none, []⟩
            (str "Ваня"))) ++
        turnSent (handle_dialog_message dbW aiW 0 0
          (turnSession ⟨askNameL, none, []⟩
            (handle_dialog_message dbW aiW 0 0 ⟨askNameL, none, []⟩
              (str "Ваня"))) (str "да")) :=
  C8_shown_titles_were_sent dbW _ _
    (Reach.step aiW 0 0 (str "да") (Reach.step aiW 0 0 (str "Ваня") Reach.init))
    (str "Узник") (by decide)

/-! ## Random picker lemmas (C2) -/

theorem grp_none_iff (db : AuthorData) (k : Nat) (ex : Option (List Str)) :
    get_random_poem db k ex = none ↔ candidatesOf db ex = [] := by
  unfold get_random_poem
  by_cases hc : candidatesOf db ex = []
  · simp [hc]
  · have hlen : 0 < (candidatesOf db ex).length := List.length_pos.mpr hc
    have hlt : k % (candidatesOf db ex).length < (candidatesOf db ex).length :=
      Nat.mod_lt _ hlen
    simp [List.isEmpty_iff, hc, List.getElem?_eq_getElem hlt]

theorem grp_mem (db : AuthorData) (k : Nat) (ex : Option (List Str))
    (r : RandPoem) (h : get_random_poem db k ex = some r) :
    r ∈ candidatesOf db ex := by
  unfold get_random_poem at h
  by_cases hc : candidatesOf db ex = []
  · simp [hc] at h
  · simp only [List.isEmpty_iff, hc, if_false, decide_eq_true_eq] at h
    exact List.getElem?_mem h

theorem candidatesOf_none_eq (db : AuthorData) :
    candidatesOf db none = db.poems.map fun p => ⟨p.title, p.text⟩ := by
  unfold candidatesOf notExcluded
  simp

theorem mem_candidatesOf {db : AuthorData} {ex : Option (List Str)}
    {r : RandPoem} (h : r ∈ candidatesOf db ex) :
    r.title ∈ titlesOf db ∧ notExcluded ex r.title = true := by
  unfold candidatesOf at h
  rcases List.mem_map.mp h with ⟨p, hp, hr⟩
  rcases List.mem_filter.mp hp with ⟨hmem, hex⟩
  subst hr
  exact ⟨List.mem_map.mpr ⟨p, hmem, rfl⟩, hex⟩

theorem notExcluded_some_not_mem {used : List Str} {t : Str}
    (h : notExcluded (some used) t = true) : t ∉ used := by
  intro hmem
  have h1 : used ≠ [] := List.ne_nil_of_mem hmem
  simp [notExcluded, List.isEmpty_iff, h1, hmem] at h

theorem candidatesOf_exhausted {db : AuthorData} {used : List Str}
    (hne : used ≠ []) (hall : ∀ t ∈ titlesOf db, t ∈ used) :
    candidatesOf db (some used) = [] := by
  unfold candidatesOf
  rw [List.map_eq_nil_iff, List.filter_eq_nil_iff]
  intro p hp
  have ht : p.title ∈ used := hall _ (List.mem_map.mpr ⟨p, hp, rfl⟩)
  simp [notExcluded, List.isEmpty_iff, hne, ht]

theorem candidatesOf_some_ne_nil {db : AuthorData} {used : List Str}
    (hnod : (titlesOf db).Nodup) (_hsub : used ⊆ titlesOf db)
    (hlen : used.length < (titlesOf db).length) :
    candidatesOf db (some used) ≠ [] := by
  intro hempty
  unfold candidatesOf at hempty
  rw [List.map_eq_nil_iff, List.filter_eq_nil_iff] at hempty
  have hsub2 : titlesOf db ⊆ used := by
    intro t ht
    rcases List.mem_map.mp ht with ⟨p, hp, hr⟩
    subst hr
    have hnp := hempty p hp
    simp only [notExcluded, Bool.or_eq_true, not_or, Bool.not_eq_true',
      Bool.not_eq_true, Bool.not_eq_false] at hnp
    rcases hnp with ⟨_, hcont⟩
    simpa using hcont
  have := (List.subperm_of_subset hnod hsub2).length_le
  omega

/-- One delivery during the growing phase: a fresh poem is delivered, its
title recorded. -/
theorem send_step (db : AuthorData) (p1 p2 : Nat) (s : Session)
    (hnod : (titlesOf db).Nodup) (hsub : s.poemsUsed ⊆ titlesOf db)
    (hlen : s.poemsUsed.length < (titlesOf db).length) :
    ∃ t, (send_random_poem db p1 p2 s).sent = [t] ∧
      t ∈ titlesOf db ∧ t ∉ s.poemsUsed ∧
      (send_random_poem db p1 p2 s).session.poemsUsed = s.poemsUsed ++ [t] ∧
      (send_random_poem db p1 p2 s).ok = true := by
  have hne := candidatesOf_some_ne_nil hnod hsub hlen
  rcases hg : get_random_poem db p1 (some s.poemsUsed) with _ | r
  · exact absurd ((grp_none_iff db p1 (some s.poemsUsed)).mp hg) hne
  · have hr := mem_candidatesOf (grp_mem db p1 _ r hg)
    refine ⟨r.title, ?_, hr.1, notExcluded_some_not_mem hr.2, ?_, ?_⟩ <;>
      simp [send_random_poem, hg]

/-- Iterating the delivery operation while unseen poems remain: each
invocation appends one fresh title. -/
theorem run_growing (db : AuthorData) (hnod : (titlesOf db).Nodup) :
    ∀ (picks : List (Nat × Nat)) (s : Session),
      s.poemsUsed.Nodup → s.poemsUsed ⊆ titlesOf db →
      s.poemsUsed.length + picks.length ≤ (titlesOf db).length →
      (runPicker db s picks).2.poemsUsed =
          s.poemsUsed ++ (runPicker db s picks).1 ∧
        (s.poemsUsed ++ (runPicker db s picks).1).Nodup ∧
        (s.poemsUsed ++ (runPicker db s picks).1) ⊆ titlesOf db ∧
        (runPicker db s picks).1.length = picks.length := by
  intro picks
  induction picks with
  | nil =>
    intro s h1 h2 _
    simpa [runPicker] using ⟨h1, h2⟩
  | cons pr rest ih =>
    intro s h1 h2 h3
    obtain ⟨t, hsent, htmem, htnot, hused, _⟩ :=
      send_step db pr.1 pr.2 s hnod h2 (by simp at h3; omega)
    have hn1 : (send_random_poem db pr.1 pr.2 s).session.poemsUsed.Nodup := by
      rw [hused]
      simp [List.nodup_append, h1, htnot]
    have hs1 : (send_random_poem db pr.1 pr.2 s).session.poemsUsed ⊆
        titlesOf db := by
      rw [hused]
      intro x hx
      rcases List.mem_append.mp hx with hx | hx
      · exact h2 hx
      · rcases List.mem_singleton.mp hx with rfl
        exact htmem
    have hl1 : (send_random_poem db pr.1 pr.2 s).session.poemsUsed.length +
        rest.length ≤ (titlesOf db).length := by
      rw [hused]
      simp at h3 ⊢
      omega
    obtain ⟨ha, hb, hc, hd⟩ :=
      ih (send_random_poem db pr.1 pr.2 s).session hn1 hs1 hl1
    rw [hused] at ha hb hc
    simp only [runPicker]
    refine ⟨?_, ?_, ?_, ?_⟩
    · rw [ha, hsent, List.append_assoc]
    · rw [hsent, ← List.append_assoc]
      exact hb
    · rw [hsent, ← List.append_assoc]
      exact hc
    · simp [hsent, hd]

theorem send_fail_iff (db : AuthorData) (p1 p2 : Nat) (s : Session) :
    (send_random_poem db p1 p2 s).ok = false ↔ db.poems = [] := by
  rcases hg : get_random_poem db p1 (some s.poemsUsed) with _ | r
  · rcases hg2 : get_random_poem db p2 none with _ | r2
    · have h2 := (grp_none_iff db p2 none).mp hg2
      rw [candidatesOf_none_eq, List.map_eq_nil_iff] at h2
      simp [send_random_poem, hg, hg2, h2]
    · have h2 : candidatesOf db none ≠ [] := by
        intro hc
        rw [(grp_none_iff db p2 none).mpr hc] at hg2
        exact Option.noConfusion hg2
      rw [candidatesOf_none_eq] at h2
      simp only [ne_eq, List.map_eq_nil_iff] at h2
      simp [send_random_poem, hg, hg2, h2]
  · have h2 : candidatesOf db (some s.poemsUsed) ≠ [] := by
      intro hc
      rw [(grp_none_iff db p1 (some s.poemsUsed)).mpr hc] at hg
      exact Option.noConfusion hg
    have h3 : db.poems ≠ [] := by
      intro hp
      apply h2
      unfold candidatesOf
      rw [hp]
      rfl
    simp [send_random_poem, hg, h3]

/-- C2: the poem-delivery operation fails (sends the "nothing available"
reply) iff the author has zero poems — when every candidate is excluded the
exclusion set is reset and the choice retried unfiltered, so exhaustion
never causes failure; starting from an empty exclusion set, with distinct
titles, as many invocations as there are poems deliver every candidate
exactly once (a permutation of the title list), and the next invocation
succeeds by delivering a previously excluded poem again. -/
theorem C2_picker_exclusion_reset :
    ∀ (db : AuthorData) (p1 p2 : Nat) (s : Session)
      (picks : List (Nat × Nat)) (q1 q2 : Nat) (s0 : Session),
      ((send_random_poem db p1 p2 s).ok = false ↔ db.poems = []) ∧
      ((titlesOf db).Nodup → s0.poemsUsed = [] →
        picks.length = (titlesOf db).length →
        (runPicker db s0 picks).1.Perm (titlesOf db) ∧
          (db.poems ≠ [] →
            (send_random_poem db q1 q2 (runPicker db s0 picks).2).ok = true ∧
              ∀ t ∈ (send_random_poem db q1 q2 (runPicker db s0 picks).2).sent,
                t ∈ (runPicker db s0 picks).1)) := by
  intro db p1 p2 s picks q1 q2 s0
  refine ⟨send_fail_iff db p1 p2 s, ?_⟩
  intro hnod hempty hlen
  obtain ⟨ha, hb, hc, hd⟩ :=
    run_growing db hnod picks s0 (by rw [hempty]; exact List.nodup_nil)
      (by rw [hempty]; intro x hx; cases hx)
      (by rw [hempty, hlen]; simp)
  rw [hempty, List.nil_append] at ha hb hc
  have hperm : (runPicker db s0 picks).1.Perm (titlesOf db) :=
    (List.subperm_of_subset hb hc).perm_of_length_le (by rw [hd, hlen])
  refine ⟨hperm, ?_⟩
  intro hpoems
  have htne : titlesOf db ≠ [] := by
    simpa [titlesOf] using hpoems
  have hdsne : (runPicker db s0 picks).1 ≠ [] := by
    intro h0
    have hp := List.length_pos.mpr htne
    rw [h0] at hd
    simp at hd
    omega
  have hall : ∀ t ∈ titlesOf db, t ∈ (runPicker db s0 picks).1 :=
    fun t ht => hperm.mem_iff.mpr ht
  have hexh : candidatesOf db (some (runPicker db s0 picks).2.poemsUsed) = [] := by
    rw [ha]
    exact candidatesOf_exhausted hdsne hall
  have hg1 : get_random_poem db q1 (some (runPicker db s0 picks).2.poemsUsed)
      = none := (grp_none_iff db q1 _).mpr hexh
  rcases hg2 : get_random_poem db q2 none with _ | r
  · have h0 := (grp_none_iff db q2 none).mp hg2
    rw [candidatesOf_none_eq, List.map_eq_nil_iff] at h0
    exact absurd h0 hpoems
  · have hrmem := (mem_candidatesOf (grp_mem db q2 none r hg2)).1
    constructor
    · simp [send_random_poem, hg1, hg2]
    · intro t ht
      simp [send_random_poem, hg1, hg2] at ht
      subst ht
      exact hall _ hrmem

/-- Witness for C2 with two distinctly titled poems: two invocations
deliver both titles, the third delivers a repeat. -/
theorem C2_witness :
    ((send_random_poem dbW2 0 0 ⟨offerPoemL, none, []⟩).ok = false ↔
        dbW2.poems = []) ∧
      (runPicker dbW2 ⟨offerPoemL, none, []⟩ [(0, 0), (0, 0)]).1.Perm
          (titlesOf dbW2) ∧
        (send_random_poem dbW2 0 0
            (runPicker dbW2 ⟨offerPoemL, none, []⟩ [(0, 0), (0, 0)]).2).ok =
          true ∧
        ∀ t ∈ (send_random_poem dbW2 0 0
            (runPicker dbW2 ⟨offerPoemL, none, []⟩ [(0, 0), (0, 0)]).2).sent,
          t ∈ (runPicker dbW2 ⟨offerPoemL, none, []⟩ [(0, 0), (0, 0)]).1 :=
  have h := C2_picker_exclusion_reset dbW2 0 0 ⟨offerPoemL, none, []⟩
    [(0, 0), (0, 0)] 0 0 ⟨offerPoemL, none, []⟩
  have h2 := h.2 (by decide) rfl (by decide)
  ⟨h.1, h2.1, h2.2 (by decide)⟩
